import Mathlib

/-!
Shallow embedding of the certmagic-postgres storage plugin
(`caddy.go`, tables from `db/20200721125602_baseline.up.sql`).

The backing store is two PostgreSQL tables, each keyed by a text
primary key:

* `certmagic_data (key text PRIMARY KEY, value bytea, modified timestamptz)`
* `certmagic_locks (key text PRIMARY KEY, expires timestamptz)`

We model each table as an association list from `String` to the row's
payload; the primary-key constraint means a key occurs at most once, and
all the SQL statements used by the code (point `SELECT`, upsert via
`INSERT ... ON CONFLICT (key) DO UPDATE`, `DELETE ... WHERE key = $1`)
are captured by `lookupRow`, `upsertRow` and `deleteRow` below.
Timestamps are integers (e.g. seconds); byte values are `List Nat`.
-/

set_option autoImplicit false

namespace CertmagicPostgres

variable {α : Type}

/-- `SELECT ... WHERE key = $1` on a primary-key column: the row for `k`,
if present. -/
def lookupRow : List (String × α) → String → Option α
  | [], _ => none
  | (k', v) :: rest, k => if k' = k then some v else lookupRow rest k

/-- `INSERT (key, ...) VALUES ($1, ...) ON CONFLICT (key) DO UPDATE SET ...`:
replace the row for `k` if one exists, otherwise add one. -/
def upsertRow : List (String × α) → String → α → List (String × α)
  | [], k, v => [(k, v)]
  | (k', v') :: rest, k, v =>
      if k' = k then (k, v) :: rest else (k', v') :: upsertRow rest k v

/-- `DELETE FROM ... WHERE key = $1`: remove the row(s) for `k`. -/
def deleteRow : List (String × α) → String → List (String × α)
  | [], _ => []
  | (k', v') :: rest, k =>
      if k' = k then deleteRow rest k else (k', v') :: deleteRow rest k

theorem lookupRow_upsertRow_self (tbl : List (String × α)) (k : String) (v : α) :
    lookupRow (upsertRow tbl k v) k = some v := by
  induction tbl with
  | nil => simp [upsertRow, lookupRow]
  | cons hd rest ih =>
      by_cases h : hd.1 = k
      · simp [upsertRow, lookupRow, h]
      · simp [upsertRow, lookupRow, h, ih]

theorem lookupRow_deleteRow_self (tbl : List (String × α)) (k : String) :
    lookupRow (deleteRow tbl k) k = none := by
  induction tbl with
  | nil => simp [deleteRow, lookupRow]
  | cons hd rest ih =>
      by_cases h : hd.1 = k
      · simp [deleteRow, h, ih]
      · simp [deleteRow, lookupRow, h, ih]

/-- A row of `certmagic_data`: the stored byte value and the
`modified` timestamp. -/
structure Record where
  value : List Nat
  modified : Int
deriving DecidableEq, Repr

/-- The `certmagic_data` table. -/
abbrev DataTable := List (String × Record)

/-- The `certmagic_locks` table: each row holds the `expires` timestamp. -/
abbrev LockTable := List (String × Int)

/-- The `Storage` struct of `caddy.go`: the configured query timeout and
lock (lease) duration, both durations (the `*sql.DB` handle is the
environment, not data). -/
structure Storage where
  queryTimeout : Int
  lockTimeout : Int
deriving DecidableEq, Repr

/-- The defaults set in `Connect`/`Open`: query timeout 3 s, lock
timeout 1 min (here in seconds). -/
def defaultStorage : Storage := { queryTimeout := 3, lockTimeout := 60 }

/-- Error outcomes of `Load`. -/
inductive LoadError where
  | notFound (key : String)
deriving DecidableEq, Repr

/-- `Storage.Store`: executes
`INSERT INTO certmagic_data (key, value) VALUES ($1, $2)
 ON CONFLICT (key) DO UPDATE SET VALUE = $2, modified = CURRENT_TIMESTAMP`.
On a fresh insert `modified` takes its column default
`CURRENT_TIMESTAMP`, on conflict it is set to `CURRENT_TIMESTAMP`, so in
both branches the row becomes `(key, value, now)`. The statement never
fails because the key already exists. -/
def Storage.store (data : DataTable) (now : Int) (key : String)
    (value : List Nat) : DataTable :=
  upsertRow data key { value := value, modified := now }

/-- `Storage.Load`: `SELECT value FROM certmagic_data WHERE key = $1`;
`sql.ErrNoRows` is mapped to `certmagic.ErrNotExist`. -/
def Storage.load (data : DataTable) (key : String) :
    Except LoadError (List Nat) :=
  match lookupRow data key with
  | some r => .ok r.value
  | none => .error (.notFound key)

/-- Error outcome of `Lock`: `key %s is already locked`. -/
inductive LockError where
  | locked (key : String)
deriving DecidableEq, Repr

/-- The check in `Storage.Lock`:
`SELECT EXISTS(SELECT 1 FROM certmagic_locks WHERE key = $1 AND
expires > CURRENT_TIMESTAMP)`. `CURRENT_TIMESTAMP` is the backend's
clock, so the check is against `backendNow`. -/
def activeLeaseExists (locks : LockTable) (backendNow : Int) (key : String) :
    Bool :=
  match lookupRow locks key with
  | some expires => decide (backendNow < expires)
  | none => false

/-- `Storage.Lock`, sequential (uncontended) semantics. Inside one
transaction the code runs the existence check against the backend clock
(`CURRENT_TIMESTAMP`), and on "not locked" executes
`INSERT INTO certmagic_locks (key, expires) VALUES ($1, $2)
 ON CONFLICT (key) DO UPDATE SET expires = $2`
with `$2 = time.Now().Add(s.lockTimeout)` — `time.Now()` is the local
process clock, so the written expiry is `localNow + s.lockTimeout`.
The two clocks are separate parameters because the code reads both. -/
def Storage.lock (s : Storage) (locks : LockTable) (backendNow localNow : Int)
    (key : String) : Except LockError LockTable :=
  if activeLeaseExists locks backendNow key then
    .error (.locked key)
  else
    .ok (upsertRow locks key (localNow + s.lockTimeout))

/-- `Storage.Unlock`: `DELETE FROM certmagic_locks WHERE key = $1`,
unconditional. -/
def Storage.unlock (_s : Storage) (locks : LockTable) (key : String) :
    LockTable :=
  deleteRow locks key

theorem activeLeaseExists_iff (locks : LockTable) (now : Int) (k : String) :
    activeLeaseExists locks now k = true
      ↔ ∃ e, lookupRow locks k = some e ∧ now < e := by
  unfold activeLeaseExists
  cases h : lookupRow locks k with
  | none => simp
  | some e => simp

/-- C4: For every key k and value v, a successful Put (Store) of v at k
followed by Get (Load) of k returns exactly v; Store is modelled as a
total function on the table because the single conditional-write
statement never fails on an existing key — instead the existing row's
value is replaced and its `modified` timestamp refreshed to the write
time, as the second and third conjuncts state. -/
theorem store_load_roundtrip (data : DataTable) (now : Int) (key : String)
    (value : List Nat) :
    Storage.load (Storage.store data now key value) key = .ok value
    ∧ lookupRow (Storage.store data now key value) key
        = some { value := value, modified := now }
    ∧ ∀ old : Record, lookupRow data key = some old →
        lookupRow (Storage.store data now key value) key
          = some { value := value, modified := now } := by
  refine ⟨?_, ?_, ?_⟩
  · unfold Storage.load Storage.store
    rw [lookupRow_upsertRow_self]
  · exact lookupRow_upsertRow_self data key _
  · intro old _
    exact lookupRow_upsertRow_self data key _

/-- Witness for C4 at concrete inputs: overwriting the existing record
for "k" (value [1], modified 0) at time 7 with [2, 3] round-trips and
leaves the row with the new value and modified = 7. -/
theorem store_load_roundtrip_witness :
    Storage.load (Storage.store [("k", { value := [1], modified := 0 })] 7
        "k" [2, 3]) "k" = Except.ok [2, 3]
    ∧ lookupRow (Storage.store [("k", { value := [1], modified := 0 })] 7
        "k" [2, 3]) "k" = some { value := [2, 3], modified := 7 } :=
  ⟨(store_load_roundtrip [("k", { value := [1], modified := 0 })] 7 "k"
      [2, 3]).1,
   (store_load_roundtrip [("k", { value := [1], modified := 0 })] 7 "k"
      [2, 3]).2.2 { value := [1], modified := 0 } (by decide)⟩

/-- C2: With a single clock `now` (backend and local clocks agreeing),
Lock on k fails with Locked iff a lease row for k exists whose expires
is strictly after now; otherwise it succeeds, upserting the row with
expires = now + lockTimeout. In particular: a second Lock while the
first lease is unexpired fails with Locked; a Lock once the lease
duration has elapsed succeeds; a Lock immediately after Unlock(k)
succeeds. -/
theorem lock_semantics (s : Storage) (locks : LockTable) (now : Int)
    (k : String) :
    (s.lock locks now now k = .error (.locked k)
       ↔ ∃ e, lookupRow locks k = some e ∧ now < e)
    ∧ ((¬ ∃ e, lookupRow locks k = some e ∧ now < e) →
        s.lock locks now now k = .ok (upsertRow locks k (now + s.lockTimeout)))
    ∧ (∀ locks' t₁, s.lock locks now now k = .ok locks' →
        t₁ < now + s.lockTimeout →
        s.lock locks' t₁ t₁ k = .error (.locked k))
    ∧ (∀ locks' t₂, s.lock locks now now k = .ok locks' →
        now + s.lockTimeout ≤ t₂ →
        s.lock locks' t₂ t₂ k = .ok (upsertRow locks' k (t₂ + s.lockTimeout)))
    ∧ (∀ t₃, s.lock (s.unlock locks k) t₃ t₃ k
        = .ok (upsertRow (s.unlock locks k) k (t₃ + s.lockTimeout))) := by
  have hchar := activeLeaseExists_iff locks now k
  refine ⟨?_, ?_, ?_, ?_, ?_⟩
  · constructor
    · intro h
      by_cases hb : activeLeaseExists locks now k
      · exact hchar.mp hb
      · simp [Storage.lock, hb] at h
    · intro h
      have hb : activeLeaseExists locks now k = true := hchar.mpr h
      simp [Storage.lock, hb]
  · intro h
    have hb : activeLeaseExists locks now k = false := by
      by_cases hb : activeLeaseExists locks now k
      · exact absurd (hchar.mp hb) h
      · simpa using hb
    simp [Storage.lock, hb]
  · intro locks' t₁ hok ht
    have hb : activeLeaseExists locks now k = false := by
      by_cases hb : activeLeaseExists locks now k
      · simp [Storage.lock, hb] at hok
      · simpa using hb
    have hlocks' : locks' = upsertRow locks k (now + s.lockTimeout) := by
      simp [Storage.lock, hb] at hok
      exact hok.symm
    have hlook : lookupRow locks' k = some (now + s.lockTimeout) := by
      rw [hlocks']
      exact lookupRow_upsertRow_self locks k _
    have hb' : activeLeaseExists locks' t₁ k = true :=
      (activeLeaseExists_iff locks' t₁ k).mpr ⟨now + s.lockTimeout, hlook, ht⟩
    simp [Storage.lock, hb']
  · intro locks' t₂ hok ht
    have hb : activeLeaseExists locks now k = false := by
      by_cases hb : activeLeaseExists locks now k
      · simp [Storage.lock, hb] at hok
      · simpa using hb
    have hlocks' : locks' = upsertRow locks k (now + s.lockTimeout) := by
      simp [Storage.lock, hb] at hok
      exact hok.symm
    have hlook : lookupRow locks' k = some (now + s.lockTimeout) := by
      rw [hlocks']
      exact lookupRow_upsertRow_self locks k _
    have hb' : activeLeaseExists locks' t₂ k = false := by
      unfold activeLeaseExists
      rw [hlook]
      simp
      omega
    simp [Storage.lock, hb']
  · intro t₃
    have hlook : lookupRow (s.unlock locks k) k = none := by
      unfold Storage.unlock
      exact lookupRow_deleteRow_self locks k
    have hb : activeLeaseExists (s.unlock locks k) t₃ k = false := by
      unfold activeLeaseExists
      rw [hlook]
    simp [Storage.lock, hb]

/-- Witness for C2 at concrete inputs: a key holding an unexpired lease
(expires 60, now 10) is refused, and a key absent from the lock table is
granted with expires = now + default lock timeout. -/
theorem lock_semantics_witness :
    defaultStorage.lock [("k", 60)] 10 10 "k"
        = Except.error (LockError.locked "k")
    ∧ defaultStorage.lock [] 0 0 "j" = Except.ok [("j", 60)] :=
  ⟨(lock_semantics defaultStorage [("k", 60)] 10 "k").1.mpr
      ⟨60, by decide, by decide⟩,
   (lock_semantics defaultStorage [] 0 "j").2.1 (by simp [lookupRow])⟩

/-- C3 counterexample: with backend clock 0, local process clock 5 and
lock timeout 10, the successful Lock writes the row ("k", 15) — local
now plus the lease duration — and 15 is not the backend's current time
plus the lease duration (0 + 10), refuting the claim that the backend's
clock is the time source for the written expiry. -/
theorem lock_expiry_counterexample :
    (Storage.mk 3 10).lock [] 0 5 "k" = Except.ok [("k", 15)]
    ∧ lookupRow [("k", (15 : Int))] "k" ≠ some (0 + 10) :=
  ⟨rfl, by decide⟩

/-- C3 amended: on success the expiry written into the lease row equals
the LOCAL process clock's current time plus the configured lease
duration (`time.Now().Add(s.lockTimeout)`), while the active-lease
check alone uses the backend's clock (`CURRENT_TIMESTAMP`); the two
clock sources are mixed, so skew between a caller's local clock and the
backend clock shifts the written expiry. -/
theorem lock_expiry_local_clock (s : Storage) (locks : LockTable)
    (backendNow localNow : Int) (key : String) (locks' : LockTable) :
    (s.lock locks backendNow localNow key = .ok locks' →
       lookupRow locks' key = some (localNow + s.lockTimeout))
    ∧ (s.lock locks backendNow localNow key = .error (.locked key)
       ↔ ∃ e, lookupRow locks key = some e ∧ backendNow < e) := by
  have hchar := activeLeaseExists_iff locks backendNow key
  constructor
  · intro hok
    have hb : activeLeaseExists locks backendNow key = false := by
      by_cases hb : activeLeaseExists locks backendNow key
      · simp [Storage.lock, hb] at hok
      · simpa using hb
    have hlocks' : locks' = upsertRow locks key (localNow + s.lockTimeout) := by
      simp [Storage.lock, hb] at hok
      exact hok.symm
    rw [hlocks']
    exact lookupRow_upsertRow_self locks key _
  · constructor
    · intro h
      by_cases hb : activeLeaseExists locks backendNow key
      · exact hchar.mp hb
      · simp [Storage.lock, hb] at h
    · intro h
      have hb : activeLeaseExists locks backendNow key = true := hchar.mpr h
      simp [Storage.lock, hb]

/-- Witness for C3 amended at concrete inputs: backend clock 0, local
clock 5, timeout 10 — the written expiry is 5 + 10 = 15. -/
theorem lock_expiry_local_clock_witness :
    lookupRow [("k", (15 : Int))] "k" = some ((5 : Int) + 10) :=
  (lock_expiry_local_clock (Storage.mk 3 10) [] 0 5 "k" [("k", 15)]).1 rfl

/-!
Concurrency model of `Storage.Lock`. `Lock` runs its transaction via
`BeginTx(ctx, nil)`, i.e. at PostgreSQL's default READ COMMITTED
isolation. At that level each statement sees the latest committed
state; the `SELECT EXISTS` takes no row locks, and the
`INSERT ... ON CONFLICT (key) DO UPDATE` waits for any conflicting
row lock and then applies its update against the committed row, after
which the transaction commits. A `Lock` call is therefore two atomic
actions on the committed lock table: the existence check, and the
write-plus-commit; actions of concurrent calls may interleave freely
between those two points.
-/

/-- Phase of one in-flight `Lock` transaction: not yet checked; check
done with the observed answer; finished with success
(`done true` = the call returned nil, `done false` = it returned the
Locked error and rolled back without writing). -/
inductive TxPhase where
  | start
  | checked (isLocked : Bool)
  | done (success : Bool)
deriving DecidableEq, Repr

/-- One atomic action of an in-flight `Lock key` transaction against
the committed lock table. -/
def lockStep (s : Storage) (backendNow localNow : Int) (key : String)
    (locks : LockTable) : TxPhase → TxPhase × LockTable
  | .start => (.checked (activeLeaseExists locks backendNow key), locks)
  | .checked true => (.done false, locks)
  | .checked false =>
      (.done true, upsertRow locks key (localNow + s.lockTimeout))
  | .done b => (.done b, locks)

/-- The two concurrent callers of the race. -/
inductive Caller where
  | A
  | B
deriving DecidableEq, Repr

/-- Committed lock table plus the phase of each caller's transaction. -/
structure RaceState where
  locks : LockTable
  phaseA : TxPhase
  phaseB : TxPhase
deriving DecidableEq, Repr

/-- Run one atomic action of the chosen caller. -/
def raceStep (s : Storage) (backendNow localNow : Int) (key : String)
    (st : RaceState) : Caller → RaceState
  | .A =>
      let r := lockStep s backendNow localNow key st.locks st.phaseA
      { locks := r.2, phaseA := r.1, phaseB := st.phaseB }
  | .B =>
      let r := lockStep s backendNow localNow key st.locks st.phaseB
      { locks := r.2, phaseA := st.phaseA, phaseB := r.1 }

/-- Run a schedule (interleaving) of the two concurrent `Lock key`
calls, starting from an empty lock table. -/
def runRace (s : Storage) (backendNow localNow : Int) (key : String)
    (sched : List Caller) : RaceState :=
  sched.foldl (raceStep s backendNow localNow key)
    { locks := [], phaseA := .start, phaseB := .start }

/-- C1: two concurrent `Lock "k"` calls on an empty lock table, under
the interleaving check-A, check-B, write/commit-A, write/commit-B
permitted by READ COMMITTED, both observe "no active lease" and BOTH
return success — refuting the claim (and `Lock`'s own documentation)
that at most one concurrent caller can obtain the lock. The last
conjunct confirms the model is not degenerate: under the serialized
schedule A, A, B, B the second caller does fail with Locked. -/
theorem lock_race_both_succeed :
    (runRace defaultStorage 0 0 "k" [.A, .B, .A, .B]).phaseA
        = TxPhase.done true
    ∧ (runRace defaultStorage 0 0 "k" [.A, .B, .A, .B]).phaseB
        = TxPhase.done true
    ∧ (runRace defaultStorage 0 0 "k" [.A, .A, .B, .B]).phaseB
        = TxPhase.done false := by decide

end CertmagicPostgres
